import Mathlib

set_option maxHeartbeats 1600000

namespace Catalog

/-- Timestamps are modelled as an abstract discrete clock value: every handler
in main.py samples datetime.now, which we pass in as an explicit argument. -/
abbrev Time := Nat

/-- models/item.py ItemStatus: the three status strings available, reserved, sold. -/
inductive ItemStatus where
  | available
  | reserved
  | sold
deriving DecidableEq

/-- main.py ItemORM: one row of the items table. Columns follow the source:
name is declared NOT NULL, every other data column is nullable, hence Option.
price (a SQL Float) is modelled as a rational number; no claim depends on
floating-point rounding. -/
structure ItemORM where
  id : Nat
  name : String
  description : Option String
  price : Option Rat
  category : Option String
  status : Option ItemStatus
  created_at : Time
  updated_at : Time
deriving DecidableEq

/-- main.py ItemImageORM: one row of the item_images table. image_url is
declared NOT NULL; alt_text and is_primary are nullable columns. -/
structure ItemImageORM where
  id : Nat
  item_id : Nat
  image_url : String
  alt_text : Option String
  is_primary : Option Bool
  created_at : Time
  updated_at : Time
deriving DecidableEq

/-- The database: the two tables, rows kept in rowid (insertion) order, which
is the order unsorted SQLite queries return. -/
structure DB where
  items : List ItemORM
  images : List ItemImageORM
deriving DecidableEq

def emptyDB : DB := { items := [], images := [] }

/-- SQLite rowid assignment for an INTEGER PRIMARY KEY column without
AUTOINCREMENT (the schema generated by Column(Integer, primary_key=True)):
a fresh row gets one plus the largest rowid currently in the table, or 1 when
the table is empty. -/
def nextRowId (ids : List Nat) : Nat := ids.foldr max 0 + 1

def DB.nextItemId (db : DB) : Nat := nextRowId (db.items.map (·.id))

def DB.nextImageId (db : DB) : Nat := nextRowId (db.images.map (·.id))

/-- The two HTTP error outcomes the modelled handlers can produce: 404 via
HTTPException, or a 500 from an IntegrityError raised at commit when a
NOT NULL column has been set to null (the session is closed unflushed, so the
database is left unchanged). -/
inductive ApiError where
  | notFound
  | storageError
deriving DecidableEq

/-- models/item.py ItemCreate: required name, price, category; optional
description; status defaults to available and is not nullable. -/
structure ItemCreate where
  name : String
  description : Option String := none
  price : Rat
  category : String
  status : ItemStatus := ItemStatus.available
deriving DecidableEq

/-- models/item.py ItemUpdate: every field optional. The outer Option records
whether the field was present in the request body at all (pydantic
exclude_unset); the inner Option is the transmitted value, which may be null. -/
structure ItemUpdate where
  name : Option (Option String) := none
  description : Option (Option String) := none
  price : Option (Option Rat) := none
  category : Option (Option String) := none
  status : Option (Option ItemStatus) := none
deriving DecidableEq

/-- models/item_image.py ItemImageCreate: required image_url, optional
alt_text, is_primary defaulting to false. -/
structure ItemImageCreate where
  image_url : String
  alt_text : Option String := none
  is_primary : Bool := false
deriving DecidableEq

/-- models/item_image.py ItemImageUpdate, with the same present/null encoding
as ItemUpdate. -/
structure ItemImageUpdate where
  image_url : Option (Option String) := none
  alt_text : Option (Option String) := none
  is_primary : Option (Option Bool) := none
deriving DecidableEq

/-- All suffixes of a list, longest first, ending with []. -/
def allSuffixes : List Char → List (List Char)
  | [] => [[]]
  | c :: ts => (c :: ts) :: allSuffixes ts

/-- SQL LIKE pattern matching on character lists: percent matches any
(possibly empty) run of characters, underscore matches exactly one character,
anything else matches itself. First argument is the pattern. -/
def likeMatchAux : List Char → List Char → Bool
  | [], t => t.isEmpty
  | c :: ps, t =>
    if c = '%' then (allSuffixes t).any (fun s => likeMatchAux ps s)
    else
      match t with
      | [] => false
      | d :: ts =>
        if c = '_' then likeMatchAux ps ts
        else (c == d) && likeMatchAux ps ts

/-- lower() as SQLite applies it: ASCII lowercasing of each character. -/
def lowerChars (s : String) : List Char := s.data.map Char.toLower

/-- SQLAlchemy ilike on SQLite compiles to lower(column) LIKE lower(pattern). -/
def likeMatch (pattern s : String) : Bool :=
  likeMatchAux (lowerChars pattern) (lowerChars s)

/-- The category column test ItemORM.category.ilike(category): a NULL column
matches no pattern. -/
def categoryMatches (pattern : String) (cat : Option String) : Bool :=
  match cat with
  | none => false
  | some s => likeMatch pattern s

/-- The optional query parameters of GET /items. -/
structure ItemFilter where
  category : Option String := none
  status : Option ItemStatus := none
  min_price : Option Rat := none
  max_price : Option Rat := none

/-- A filter criterion that is only applied when the query parameter is
present. -/
def optMatch {α : Type} (f : Option α) (p : α → Bool) : Bool :=
  match f with
  | none => true
  | some x => p x

/-- The conjunction of the four optional WHERE clauses of GET /items.
SQL comparisons against a NULL price are not satisfied. -/
def itemMatches (f : ItemFilter) (it : ItemORM) : Bool :=
  optMatch f.category (fun c => categoryMatches c it.category) &&
  optMatch f.status (fun s => it.status == some s) &&
  optMatch f.min_price (fun p =>
    match it.price with
    | none => false
    | some q => decide (p ≤ q)) &&
  optMatch f.max_price (fun p =>
    match it.price with
    | none => false
    | some q => decide (q ≤ p))

/-- GET /items: filter, then offset, then limit. -/
def get_items (db : DB) (f : ItemFilter) (limit offset : Nat) : List ItemORM :=
  ((db.items.filter (itemMatches f)).drop offset).take limit

/-- GET /items/item_id: first row with the given primary key, 404 when none. -/
def get_item (db : DB) (item_id : Nat) : Option ItemORM :=
  db.items.find? (fun j => j.id == item_id)

/-- POST /items: build the row with both timestamps equal to now and the
rowid assigned by the engine, insert it, and return it. -/
def create_item (db : DB) (item : ItemCreate) (now : Time) : DB × ItemORM :=
  let newItem : ItemORM := {
    id := db.nextItemId
    name := item.name
    description := item.description
    price := some item.price
    category := some item.category
    status := some item.status
    created_at := now
    updated_at := now }
  ({ db with items := db.items ++ [newItem] }, newItem)

/-- The setattr loop of update_item applied to a row, followed by the commit.
A field present in the body overwrites the column, a present null clears it;
clearing the NOT NULL name column makes the commit raise, modelled as none. -/
def applyItemUpdate (it : ItemORM) (u : ItemUpdate) (now : Time) : Option ItemORM :=
  (u.name.getD (some it.name)).map (fun nm =>
    { it with
      name := nm
      description := u.description.getD it.description
      price := u.price.getD it.price
      category := u.category.getD it.category
      status := u.status.getD it.status
      updated_at := now })

/-- PUT /items/item_id. -/
def update_item (db : DB) (item_id : Nat) (u : ItemUpdate) (now : Time) :
    Except ApiError (DB × ItemORM) :=
  match db.items.find? (fun j => j.id == item_id) with
  | none => Except.error ApiError.notFound
  | some it =>
    match applyItemUpdate it u now with
    | none => Except.error ApiError.storageError
    | some it2 =>
      Except.ok
        ({ db with items := db.items.map (fun j => if j.id == item_id then it2 else j) },
         it2)

/-- DELETE /items/item_id: removes the row and, through the
cascade all, delete-orphan relationship, every image row whose item_id
matches; answers with a message naming the deleted item. -/
def delete_item (db : DB) (item_id : Nat) : Except ApiError (DB × String) :=
  match db.items.find? (fun j => j.id == item_id) with
  | none => Except.error ApiError.notFound
  | some it =>
    Except.ok
      ({ items := db.items.filter (fun j => j.id != item_id)
         images := db.images.filter (fun j => j.item_id != item_id) },
       "Item \x27" ++ it.name ++ "\x27 and its images deleted successfully")

/-- GET /items/category/category: ilike filter, no pagination. -/
def get_items_by_category (db : DB) (category : String) : List ItemORM :=
  db.items.filter (fun it => categoryMatches category it.category)

/-- GET /items/status/status: equality on the stored status string, no
pagination. -/
def get_items_by_status (db : DB) (status : ItemStatus) : List ItemORM :=
  db.items.filter (fun it => it.status == some status)

/-- GET /items/item_id/images/image_id: row keyed by both ids. -/
def get_item_image (db : DB) (item_id image_id : Nat) : Option ItemImageORM :=
  db.images.find? (fun j => j.id == image_id && j.item_id == item_id)

/-- POST /items/item_id/images: 404 when the item is absent; when the new
image is primary, the bulk UPDATE first clears is_primary on every primary
image of the item (touching no other column); then the new row is inserted. -/
def create_item_image (db : DB) (item_id : Nat) (image : ItemImageCreate)
    (now : Time) : Except ApiError (DB × ItemImageORM) :=
  match db.items.find? (fun j => j.id == item_id) with
  | none => Except.error ApiError.notFound
  | some _ =>
    let demoted : List ItemImageORM :=
      if image.is_primary then
        db.images.map (fun j =>
          if j.item_id == item_id && j.is_primary == some true then
            { j with is_primary := some false }
          else j)
      else db.images
    let newImg : ItemImageORM := {
      id := db.nextImageId
      item_id := item_id
      image_url := image.image_url
      alt_text := image.alt_text
      is_primary := some image.is_primary
      created_at := now
      updated_at := now }
    Except.ok ({ db with images := demoted ++ [newImg] }, newImg)

/-- The setattr loop of update_item_image followed by the commit; clearing
the NOT NULL image_url column makes the commit raise, modelled as none. -/
def applyImageUpdate (img : ItemImageORM) (u : ItemImageUpdate) : Option ItemImageORM :=
  (u.image_url.getD (some img.image_url)).map (fun url =>
    { img with
      image_url := url
      alt_text := u.alt_text.getD img.alt_text
      is_primary := u.is_primary.getD img.is_primary })

/-- PUT /items/item_id/images/image_id: 404 when the pair is absent; applies
the present fields; when the body carries is_primary = true (a truthy
attribute), the bulk UPDATE clears is_primary on every other primary image of
the item, touching no other column; updated_at of the target is refreshed. -/
def update_item_image (db : DB) (item_id image_id : Nat) (u : ItemImageUpdate)
    (now : Time) : Except ApiError (DB × ItemImageORM) :=
  match db.images.find? (fun j => j.id == image_id && j.item_id == item_id) with
  | none => Except.error ApiError.notFound
  | some img =>
    match applyImageUpdate img u with
    | none => Except.error ApiError.storageError
    | some img2 =>
      let img3 : ItemImageORM := { img2 with updated_at := now }
      let replaced : List ItemImageORM :=
        db.images.map (fun j =>
          if j.id == image_id && j.item_id == item_id then img3 else j)
      let images3 : List ItemImageORM :=
        if u.is_primary == some (some true) then
          replaced.map (fun j =>
            if j.item_id == item_id && j.id != image_id && j.is_primary == some true then
              { j with is_primary := some false }
            else j)
        else replaced
      Except.ok ({ db with images := images3 }, img3)

/-- DELETE /items/item_id/images/image_id: removes exactly the rows matching
both keys and nothing else. -/
def delete_item_image (db : DB) (item_id image_id : Nat) :
    Except ApiError (DB × String) :=
  match db.images.find? (fun j => j.id == image_id && j.item_id == item_id) with
  | none => Except.error ApiError.notFound
  | some _ =>
    Except.ok
      ({ db with images :=
          db.images.filter (fun j => !(j.id == image_id && j.item_id == item_id)) },
       "Image deleted successfully")

/-- A raw POST /items body, before pydantic validation: each field is either
present with a type-correct value or missing (also covering a type-incorrect
value, which pydantic rejects the same way). -/
structure ItemCreatePayload where
  name : Option String := none
  description : Option String := none
  price : Option Rat := none
  category : Option String := none
  status : Option ItemStatus := none
deriving DecidableEq

/-- Pydantic validation of ItemCreate: name, price and category are required
and must have the right type; description and status are optional, status
defaulting to available. models/item.py declares no length or emptiness
constraint on any string field. -/
def validateItemCreate (p : ItemCreatePayload) : Option ItemCreate :=
  match p.name, p.price, p.category with
  | some nm, some pr, some c =>
    some { name := nm, description := p.description, price := pr,
           category := c, status := p.status.getD ItemStatus.available }
  | _, _, _ => none

/-- POST /items including body validation: none models the 422 answer, which
is produced before the handler body runs, so storage is untouched. -/
def post_items (db : DB) (p : ItemCreatePayload) (now : Time) :
    Option (DB × ItemORM) :=
  (validateItemCreate p).map (fun c => create_item db c now)

/-- The WHERE clause of the primary-image queries: rows of the given item
whose is_primary column is TRUE. -/
def primaryPred (item_id : Nat) (img : ItemImageORM) : Bool :=
  img.item_id == item_id && img.is_primary == some true

/-- Number of primary images of an item. -/
def primaryCount (db : DB) (item_id : Nat) : Nat :=
  db.images.countP (primaryPred item_id)

/-- The store states reachable from the empty database through the write
endpoints of the service. -/
inductive Reachable : DB → Prop where
  | empty : Reachable emptyDB
  | createItem {db : DB} {c : ItemCreate} {now : Time} :
      Reachable db → Reachable (create_item db c now).1
  | updateItem {db db2 : DB} {item_id : Nat} {u : ItemUpdate} {now : Time} {it : ItemORM} :
      Reachable db → update_item db item_id u now = Except.ok (db2, it) → Reachable db2
  | deleteItem {db db2 : DB} {item_id : Nat} {m : String} :
      Reachable db → delete_item db item_id = Except.ok (db2, m) → Reachable db2
  | createImage {db db2 : DB} {item_id : Nat} {c : ItemImageCreate} {now : Time} {img : ItemImageORM} :
      Reachable db → create_item_image db item_id c now = Except.ok (db2, img) → Reachable db2
  | updateImage {db db2 : DB} {item_id image_id : Nat} {u : ItemImageUpdate} {now : Time} {img : ItemImageORM} :
      Reachable db → update_item_image db item_id image_id u now = Except.ok (db2, img) → Reachable db2
  | deleteImage {db db2 : DB} {item_id image_id : Nat} {m : String} :
      Reachable db → delete_item_image db item_id image_id = Except.ok (db2, m) → Reachable db2

/-- The inductive store invariant: primary keys are unique in each table and
each item has at most one primary image. -/
def Invariant (db : DB) : Prop :=
  (db.items.map (·.id)).Nodup ∧ (db.images.map (·.id)).Nodup ∧
  ∀ i : Nat, primaryCount db i ≤ 1

/-- The database produced by a successful DELETE /items/item_id. -/
def itemDeleted (db : DB) (item_id : Nat) : DB :=
  { items := db.items.filter (fun j => j.id != item_id)
    images := db.images.filter (fun j => j.item_id != item_id) }

/-- The database produced by a successful DELETE /items/item_id/images/image_id. -/
def imageDeleted (db : DB) (item_id image_id : Nat) : DB :=
  { db with images :=
      db.images.filter (fun j => !(j.id == image_id && j.item_id == item_id)) }

/- ===== concrete scenario data, used by witnesses and counterexamples ===== -/

def hammerCreate : ItemCreate := { name := "Hammer", price := 10, category := "Tools" }

def hammerRow : ItemORM :=
  { id := 1, name := "Hammer", description := none, price := some 10,
    category := some "Tools", status := some ItemStatus.available,
    created_at := 0, updated_at := 0 }

def dbHammer : DB := { items := [hammerRow], images := [] }

def imageACreate : ItemImageCreate := { image_url := "http://x/a.png", is_primary := true }

def imageARow : ItemImageORM :=
  { id := 1, item_id := 1, image_url := "http://x/a.png", alt_text := none,
    is_primary := some true, created_at := 1, updated_at := 1 }

def imageBRow : ItemImageORM :=
  { id := 2, item_id := 1, image_url := "http://x/a.png", alt_text := none,
    is_primary := some false, created_at := 2, updated_at := 2 }

def dbTwoImages : DB := { items := [hammerRow], images := [imageARow, imageBRow] }

/- ===== general helper lemmas ===== -/

theorem mem_le_foldr_max (x : Nat) (l : List Nat) (h : x ∈ l) : x ≤ l.foldr max 0 := by
  induction l with
  | nil => cases h
  | cons a l ih =>
    rcases List.mem_cons.1 h with rfl | hm
    · exact Nat.le_max_left _ _
    · exact Nat.le_trans (ih hm) (Nat.le_max_right _ _)

theorem mem_lt_nextRowId {x : Nat} {l : List Nat} (h : x ∈ l) : x < nextRowId l :=
  Nat.lt_succ_of_le (mem_le_foldr_max x l h)

theorem countP_split {α : Type} (p q : α → Bool) (l : List α) :
    l.countP p = l.countP (fun x => p x && q x) + l.countP (fun x => p x && !q x) := by
  induction l with
  | nil => simp
  | cons a l ih =>
    by_cases hp : p a <;> by_cases hq : q a <;>
      simp [List.countP_cons, hp, hq, ih] <;> omega

/- ===== Claim C2 ===== -/

/-- Claim C2: for an existing item, delete_item removes, in the one operation,
the item row and every image row whose item_id matches; afterwards get_item
and get_item_image for each of those images answer none (404), and the
confirmation message names the deleted item. -/
theorem C2_delete_item_cascades (db : DB) (item_id : Nat) (it : ItemORM)
    (h : get_item db item_id = some it) :
    delete_item db item_id =
      Except.ok (itemDeleted db item_id,
        "Item \x27" ++ it.name ++ "\x27 and its images deleted successfully") ∧
    get_item (itemDeleted db item_id) item_id = none ∧
    (∀ img ∈ db.images, img.item_id = item_id →
      get_item_image (itemDeleted db item_id) item_id img.id = none) := by
  simp only [get_item] at h
  refine ⟨by simp only [delete_item, h]; rfl, ?_, ?_⟩
  · simp only [get_item, itemDeleted, List.find?_eq_none]
    intro x hx
    have := (List.mem_filter.1 hx).2
    simpa using this
  · intro img _ _
    simp only [get_item_image, itemDeleted, List.find?_eq_none]
    intro x hx
    have := (List.mem_filter.1 hx).2
    simp only [bne_iff_ne, ne_eq] at this
    simp [this]

/-- Witness for C2 on a concrete store: one item with two images. -/
theorem C2_delete_item_cascades_witness :
    delete_item dbTwoImages 1 =
      Except.ok (itemDeleted dbTwoImages 1,
        "Item \x27" ++ hammerRow.name ++ "\x27 and its images deleted successfully") ∧
    get_item (itemDeleted dbTwoImages 1) 1 = none ∧
    get_item_image (itemDeleted dbTwoImages 1) 1 imageARow.id = none := by
  have h := C2_delete_item_cascades dbTwoImages 1 hammerRow (by rfl)
  exact ⟨h.1, h.2.1, h.2.2 imageARow (by decide) (by decide)⟩

/- ===== Claim C3 ===== -/

/-- Claim C3: a successful update_item changes exactly the fields present in
the payload plus updated_at; absent fields, id and created_at are unchanged,
the images table is untouched, and every other item row is left in place. -/
theorem C3_update_item_frame (db db2 : DB) (item_id : Nat) (it it2 : ItemORM)
    (u : ItemUpdate) (now : Time)
    (hfind : get_item db item_id = some it)
    (hok : update_item db item_id u now = Except.ok (db2, it2)) :
    it2.id = it.id ∧ it2.created_at = it.created_at ∧ it2.updated_at = now ∧
    (u.name = none → it2.name = it.name) ∧
    (∀ v, u.name = some (some v) → it2.name = v) ∧
    (u.description = none → it2.description = it.description) ∧
    (∀ v, u.description = some v → it2.description = v) ∧
    (u.price = none → it2.price = it.price) ∧
    (∀ v, u.price = some v → it2.price = v) ∧
    (u.category = none → it2.category = it.category) ∧
    (∀ v, u.category = some v → it2.category = v) ∧
    (u.status = none → it2.status = it.status) ∧
    (∀ v, u.status = some v → it2.status = v) ∧
    db2.images = db.images ∧
    db2.items = db.items.map (fun j => if j.id == item_id then it2 else j) ∧
    (∀ j ∈ db.items, j.id ≠ item_id → j ∈ db2.items) := by
  simp only [get_item] at hfind
  simp only [update_item, hfind] at hok
  cases happ : applyItemUpdate it u now with
  | none => rw [happ] at hok; simp at hok
  | some x =>
    rw [happ] at hok
    simp only [Except.ok.injEq, Prod.mk.injEq] at hok
    obtain ⟨hdb, hit⟩ := hok
    subst hdb
    rw [applyItemUpdate, Option.map_eq_some'] at happ
    obtain ⟨nm, hgetD, hx⟩ := happ
    refine ⟨by simp [← hit, ← hx], by simp [← hit, ← hx], by simp [← hit, ← hx],
      ?_, ?_, ?_, ?_, ?_, ?_, ?_, ?_, ?_, ?_, by rfl, by rw [hit], ?_⟩
    · intro h0; rw [h0] at hgetD
      simp only [Option.getD_none, Option.some.injEq] at hgetD
      simp [← hit, ← hx, ← hgetD]
    · intro v hv; rw [hv] at hgetD
      simp only [Option.getD_some, Option.some.injEq] at hgetD
      simp [← hit, ← hx, hgetD]
    · intro hd; simp [← hit, ← hx, hd]
    · intro v hv; simp [← hit, ← hx, hv]
    · intro hd; simp [← hit, ← hx, hd]
    · intro v hv; simp [← hit, ← hx, hv]
    · intro hd; simp [← hit, ← hx, hd]
    · intro v hv; simp [← hit, ← hx, hv]
    · intro hd; simp [← hit, ← hx, hd]
    · intro v hv; simp [← hit, ← hx, hv]
    · intro j hj hne
      refine List.mem_map.2 ⟨j, hj, ?_⟩
      simp [hne]

/-- Witness for C3: updating only the price of the concrete item leaves name,
description, category, status and created_at unchanged. -/
theorem C3_update_item_frame_witness :
    ({ id := 1, name := "Hammer", description := none, price := some 12,
       category := some "Tools", status := some ItemStatus.available,
       created_at := 0, updated_at := 7 } : ItemORM).name = hammerRow.name := by
  have h := C3_update_item_frame dbHammer
    { items := [{ id := 1, name := "Hammer", description := none, price := some 12,
                  category := some "Tools", status := some ItemStatus.available,
                  created_at := 0, updated_at := 7 }], images := [] }
    1 hammerRow
    { id := 1, name := "Hammer", description := none, price := some 12,
      category := some "Tools", status := some ItemStatus.available,
      created_at := 0, updated_at := 7 }
    { price := some (some 12) } 7 (by rfl) (by rfl)
  exact h.2.2.2.1 rfl

/- ===== Claim C10 ===== -/

/-- Claim C10: delete_item_image removes only the targeted image row: the
items table and every other image row are unchanged, and no image is promoted
to primary, so deleting the unique primary image of the item leaves the item
with zero primary images. -/
theorem C10_delete_image_frame (db : DB) (item_id image_id : Nat) (img : ItemImageORM)
    (h : get_item_image db item_id image_id = some img) :
    delete_item_image db item_id image_id =
      Except.ok (imageDeleted db item_id image_id, "Image deleted successfully") ∧
    (imageDeleted db item_id image_id).items = db.items ∧
    (∀ j ∈ db.images, ¬(j.id = image_id ∧ j.item_id = item_id) →
      j ∈ (imageDeleted db item_id image_id).images) ∧
    (∀ j ∈ (imageDeleted db item_id image_id).images, j ∈ db.images) ∧
    get_item_image (imageDeleted db item_id image_id) item_id image_id = none ∧
    (primaryCount db item_id ≤ 1 → img.is_primary = some true →
      primaryCount (imageDeleted db item_id image_id) item_id = 0) := by
  simp only [get_item_image] at h
  have hmem : img ∈ db.images := List.mem_of_find?_eq_some h
  have hpred := List.find?_some h
  simp only [Bool.and_eq_true, beq_iff_eq] at hpred
  refine ⟨by simp only [delete_item_image, h]; rfl, rfl, ?_, ?_, ?_, ?_⟩
  · intro j hj hne
    simp only [imageDeleted, List.mem_filter]
    refine ⟨hj, ?_⟩
    simp only [Bool.not_eq_eq_eq_not, Bool.not_true, Bool.and_eq_false_iff]
    by_cases h1 : j.id = image_id
    · by_cases h2 : j.item_id = item_id
      · exact absurd ⟨h1, h2⟩ hne
      · right; simpa using h2
    · left; simpa using h1
  · intro j hj
    exact (List.mem_filter.1 hj).1
  · simp only [get_item_image, imageDeleted, List.find?_eq_none]
    intro x hx
    have h2 := (List.mem_filter.1 hx).2
    simp only [Bool.not_eq_true'] at h2
    simp [h2]
  · intro hle hprim
    simp only [imageDeleted, primaryCount, List.countP_filter]
    have hsplit := countP_split (primaryPred item_id)
      (fun j => !(j.id == image_id && j.item_id == item_id)) db.images
    have hpos : 0 < db.images.countP
        (fun x => primaryPred item_id x &&
          !(!(x.id == image_id && x.item_id == item_id))) := by
      refine List.countP_pos_iff.2 ⟨img, hmem, ?_⟩
      simp [primaryPred, hpred.1, hpred.2, hprim]
    have hle2 : db.images.countP (primaryPred item_id) ≤ 1 := hle
    omega

/-- Witness for C10: deleting the unique primary image of the concrete item
leaves that item with zero primary images. -/
theorem C10_delete_image_frame_witness :
    delete_item_image dbTwoImages 1 1 =
      Except.ok (imageDeleted dbTwoImages 1 1, "Image deleted successfully") ∧
    primaryCount (imageDeleted dbTwoImages 1 1) 1 = 0 := by
  have h := C10_delete_image_frame dbTwoImages 1 1 imageARow (by rfl)
  exact ⟨h.1, h.2.2.2.2.2 (by decide) (by decide)⟩

/- ===== Claim C5 ===== -/

theorem likeMatchAux_no_wildcard (p t : List Char)
    (h : ∀ ch ∈ p, ch ≠ '%' ∧ ch ≠ '_') :
    (likeMatchAux p t = true ↔ p = t) := by
  induction p generalizing t with
  | nil => cases t <;> simp [likeMatchAux]
  | cons c ps ih =>
    have hc := h c (List.mem_cons_self c ps)
    have hrest : ∀ ch ∈ ps, ch ≠ '%' ∧ ch ≠ '_' :=
      fun ch hch => h ch (List.mem_cons_of_mem c hch)
    cases t with
    | nil => simp [likeMatchAux, hc.1]
    | cons d ts =>
      simp [likeMatchAux, hc.1, hc.2, ih ts hrest, List.cons.injEq, Bool.and_eq_true,
        beq_iff_eq, and_comm]

/-- Claim C5, corrected: the category filters of get_items and
get_items_by_category apply SQL ILIKE pattern matching, that is,
case-insensitive LIKE where percent and underscore in the filter are
wildcards; only for a filter free of both wildcard characters does the match
coincide with case-insensitive equality. -/
theorem C5_category_filter_is_like (db : DB) (c : String) :
    get_items_by_category db c =
      db.items.filter (fun it => categoryMatches c it.category) ∧
    (∀ limit offset, get_items db { category := some c } limit offset =
      ((db.items.filter (fun it => categoryMatches c it.category)).drop offset).take limit) ∧
    (∀ s : String, (∀ ch ∈ lowerChars c, ch ≠ '%' ∧ ch ≠ '_') →
      (likeMatch c s = true ↔ lowerChars c = lowerChars s)) := by
  refine ⟨rfl, ?_, ?_⟩
  · intro limit offset
    have hpt : ∀ it ∈ db.items,
        itemMatches { category := some c } it = categoryMatches c it.category := by
      intro it _
      simp [itemMatches, optMatch]
    rw [get_items, List.filter_congr hpt]
  · intro s h
    exact likeMatchAux_no_wildcard _ _ h

/-- Witness for C5: on a wildcard-free filter the match is exactly
case-insensitive equality of the lowercased strings. -/
theorem C5_category_filter_is_like_witness :
    likeMatch "TOOLS" "Tools" = true ↔ lowerChars "TOOLS" = lowerChars "Tools" :=
  (C5_category_filter_is_like dbHammer "TOOLS").2.2 "Tools" (by decide)

/-- Counterexample to C5 as stated: the filter strings T percent and
underscore-ools are not case-insensitively equal to Tools, yet
get_items_by_category returns the Tools item for both, because percent and
underscore act as LIKE wildcards. -/
theorem C5_counterexample :
    get_items_by_category dbHammer "T%" = [hammerRow] ∧
    get_items_by_category dbHammer "_ools" = [hammerRow] ∧
    lowerChars "T%" ≠ lowerChars "Tools" ∧
    lowerChars "_ools" ≠ lowerChars "Tools" :=
  ⟨rfl, rfl, by decide, by decide⟩

/- ===== Claim C8 ===== -/

/-- Claim C8: get_items_by_category and get_items_by_status return exactly
the items matching the single criterion with no pagination window: they equal
get_items with that one filter whenever the window covers the whole table,
and are never capped at any limit. -/
theorem C8_convenience_endpoints_unpaginated :
    (∀ db c, get_items_by_category db c =
      db.items.filter (fun it => itemMatches { category := some c } it)) ∧
    (∀ db s, get_items_by_status db s =
      db.items.filter (fun it => itemMatches { status := some s } it)) ∧
    (∀ db c n, db.items.length ≤ n →
      get_items db { category := some c } n 0 = get_items_by_category db c) ∧
    (∀ db s n, db.items.length ≤ n →
      get_items db { status := some s } n 0 = get_items_by_status db s) := by
  have hcat : ∀ (db : DB) (c : String), ∀ it ∈ db.items,
      itemMatches { category := some c } it = categoryMatches c it.category := by
    intro db c it _
    simp [itemMatches, optMatch]
  have hstat : ∀ (db : DB) (s : ItemStatus), ∀ it ∈ db.items,
      itemMatches { status := some s } it = (it.status == some s) := by
    intro db s it _
    simp [itemMatches, optMatch]
  refine ⟨?_, ?_, ?_, ?_⟩
  · intro db c
    rw [get_items_by_category, List.filter_congr (hcat db c)]
  · intro db s
    rw [get_items_by_status, List.filter_congr (hstat db s)]
  · intro db c n hn
    rw [get_items, List.drop_zero, List.take_of_length_le
      (Nat.le_trans (List.length_filter_le _ _) hn)]
    rw [get_items_by_category, List.filter_congr (hcat db c)]
  · intro db s n hn
    rw [get_items, List.drop_zero, List.take_of_length_le
      (Nat.le_trans (List.length_filter_le _ _) hn)]
    rw [get_items_by_status, List.filter_congr (hstat db s)]

/-- Witness for C8 on the concrete store. -/
theorem C8_convenience_endpoints_unpaginated_witness :
    get_items dbHammer { category := some "Tools" } 1 0 =
      get_items_by_category dbHammer "Tools" :=
  C8_convenience_endpoints_unpaginated.2.2.1 dbHammer "Tools" 1 (by decide)

/- ===== Claim C4 ===== -/

/-- Claim C4, corrected: create_item assigns id = one plus the largest id
currently stored (1 on an empty table), so the new id is strictly greater
than every id of a currently stored item, distinct from all of them, and both
timestamps equal now; but ids of deleted items can be reassigned. -/
theorem C4_id_assignment (db : DB) (c : ItemCreate) (now : Time) :
    (create_item db c now).2.id = db.nextItemId ∧
    1 ≤ (create_item db c now).2.id ∧
    (∀ j ∈ db.items, j.id < (create_item db c now).2.id) ∧
    (create_item db c now).1.items = db.items ++ [(create_item db c now).2] ∧
    (create_item db c now).2.created_at = now ∧
    (create_item db c now).2.updated_at = now := by
  refine ⟨rfl, Nat.succ_le_succ (Nat.zero_le _), ?_, rfl, rfl, rfl⟩
  intro j hj
  exact mem_lt_nextRowId (List.mem_map_of_mem (fun x => x.id) hj)

/-- Witness for C4 on the concrete store. -/
theorem C4_id_assignment_witness :
    (create_item dbHammer hammerCreate 3).2.id = dbHammer.nextItemId ∧
    hammerRow.id < (create_item dbHammer hammerCreate 3).2.id := by
  have h := C4_id_assignment dbHammer hammerCreate 3
  exact ⟨h.1, h.2.2.1 hammerRow (by decide)⟩

def dbTwoHammers : DB := (create_item (create_item emptyDB hammerCreate 0).1 hammerCreate 0).1

/-- Counterexample to C4 as stated: the second item gets id 2; after deleting
it, the next created item gets id 2 again, so an id previously assigned is
reused and the new id is not strictly greater than every previously assigned
id. -/
theorem C4_counterexample :
    (create_item (create_item emptyDB hammerCreate 0).1 hammerCreate 0).2.id = 2 ∧
    delete_item dbTwoHammers 2 =
      Except.ok (dbHammer, "Item \x27Hammer\x27 and its images deleted successfully") ∧
    (create_item dbHammer hammerCreate 0).2.id = 2 :=
  ⟨rfl, rfl, rfl⟩

/- ===== Claim C7 ===== -/

/-- Claim C7, corrected: pydantic validation of POST /items only requires
name, price and category to be present with the correct types; a failure is
produced before the handler runs, so storage is untouched; but no emptiness
check exists, so empty name or category strings pass validation and the item
is stored. -/
theorem C7_create_item_validation (p : ItemCreatePayload) (db : DB) (now : Time) :
    ((validateItemCreate p).isSome ↔
      (p.name.isSome ∧ p.price.isSome ∧ p.category.isSome)) ∧
    (validateItemCreate p = none → post_items db p now = none) ∧
    (∀ c, validateItemCreate p = some c →
      post_items db p now = some (create_item db c now) ∧
      p.name = some c.name ∧ p.price = some c.price ∧ p.category = some c.category) := by
  obtain ⟨n0, d0, pr0, c0, s0⟩ := p
  refine ⟨?_, ?_, ?_⟩
  · cases n0 <;> cases pr0 <;> cases c0 <;> simp [validateItemCreate]
  · intro h
    simp [post_items, h]
  · intro c hc
    cases n0 with
    | none => simp [validateItemCreate] at hc
    | some nm =>
      cases pr0 with
      | none => simp [validateItemCreate] at hc
      | some pr =>
        cases c0 with
        | none => simp [validateItemCreate] at hc
        | some cat =>
          simp only [validateItemCreate, Option.some.injEq] at hc
          subst hc
          exact ⟨rfl, rfl, rfl, rfl⟩

def missingPricePayload : ItemCreatePayload := { name := some "Hammer", category := some "Tools" }

/-- Witness for C7: a body without a price is rejected before storage. -/
theorem C7_create_item_validation_witness :
    post_items emptyDB missingPricePayload 0 = none :=
  (C7_create_item_validation missingPricePayload emptyDB 0).2.1 (by rfl)

def emptyNamePayload : ItemCreatePayload :=
  { name := some "", price := some 10, category := some "" }

def emptyNameRow : ItemORM :=
  { id := 1, name := "", description := none, price := some 10,
    category := some "", status := some ItemStatus.available,
    created_at := 0, updated_at := 0 }

/-- Counterexample to C7 as stated: a request with empty name and empty
category passes validation and the item is stored. -/
theorem C7_counterexample :
    validateItemCreate emptyNamePayload =
      some { name := "", description := none, price := 10, category := "",
             status := ItemStatus.available } ∧
    post_items emptyDB emptyNamePayload 0 =
      some ({ items := [emptyNameRow], images := [] }, emptyNameRow) :=
  ⟨rfl, rfl⟩

/- ===== Claim C6 ===== -/

/-- Claim C6, corrected: the bulk demotion UPDATE issued by create_item_image
and update_item_image writes only the is_primary column, so a demoted image
keeps its old updated_at and created_at; after a create every pre-existing
image keeps its timestamps and only the inserted row carries now, and after an
update only the directly targeted image has updated_at refreshed to now. -/
theorem C6_demotion_keeps_updated_at :
    (∀ db item_id c now db2 ni,
      create_item_image db item_id c now = Except.ok (db2, ni) →
        db2.images.map (fun j => j.updated_at) =
          db.images.map (fun j => j.updated_at) ++ [now] ∧
        db2.images.map (fun j => j.created_at) =
          db.images.map (fun j => j.created_at) ++ [now]) ∧
    (∀ db item_id image_id u now db2 ni,
      update_item_image db item_id image_id u now = Except.ok (db2, ni) →
        db2.images.map (fun j => j.updated_at) =
          db.images.map (fun j =>
            if j.id == image_id && j.item_id == item_id then now else j.updated_at)) := by
  constructor
  · intro db item_id c now db2 ni hok
    cases hfind : db.items.find? (fun j => j.id == item_id) with
    | none => rw [create_item_image, hfind] at hok; simp at hok
    | some it =>
      rw [create_item_image, hfind] at hok
      simp only [Except.ok.injEq, Prod.mk.injEq] at hok
      obtain ⟨hdb, hni⟩ := hok
      subst hdb
      by_cases hp : c.is_primary
      · constructor
        · simp only [hp, if_pos, List.map_append, List.map_map]
          rw [List.map_congr_left (l := db.images)
            (g := fun j => j.updated_at) (by
              intro j _
              by_cases hcond : (j.item_id == item_id && j.is_primary == some true) = true <;>
                simp [Function.comp, hcond])]
          simp [← hni]
        · simp only [hp, if_pos, List.map_append, List.map_map]
          rw [List.map_congr_left (l := db.images)
            (g := fun j => j.created_at) (by
              intro j _
              by_cases hcond : (j.item_id == item_id && j.is_primary == some true) = true <;>
                simp [Function.comp, hcond])]
          simp [← hni]
      · simp [hp, ← hni]
  · intro db item_id image_id u now db2 ni hok
    cases hfind : db.images.find? (fun j => j.id == image_id && j.item_id == item_id) with
    | none => simp [update_item_image, hfind] at hok
    | some img =>
      have hpred := List.find?_some hfind
      simp only [Bool.and_eq_true, beq_iff_eq] at hpred
      simp only [update_item_image, hfind] at hok
      cases happ : applyImageUpdate img u with
      | none => simp only [happ] at hok; exact absurd hok (by simp)
      | some img2 =>
        simp only [happ, Except.ok.injEq, Prod.mk.injEq] at hok
        obtain ⟨hdb, hni⟩ := hok
        subst hdb
        rw [applyImageUpdate, Option.map_eq_some'] at happ
        obtain ⟨url, hurl, himg2⟩ := happ
        have hid2 : img2.id = image_id := by rw [← himg2]; exact hpred.1
        by_cases hprim : (u.is_primary == some (some true)) = true
        · simp only [hprim, if_pos, List.map_map]
          refine List.map_congr_left ?_
          intro j _
          by_cases htgt : (j.id == image_id && j.item_id == item_id) = true
          · simp only [Function.comp, htgt, if_pos]
            rw [if_neg (by simp [hid2])]
          · simp only [Function.comp, htgt, if_neg, Bool.not_eq_true]
            by_cases hdem : (j.item_id == item_id && j.id != image_id &&
                j.is_primary == some true) = true <;> simp [htgt, hdem]
        · simp only [hprim, if_neg, Bool.not_eq_true, List.map_map]
          refine List.map_congr_left ?_
          intro j _
          by_cases htgt : (j.id == image_id && j.item_id == item_id) = true <;>
            simp [Function.comp, htgt]

def dbPrimaryA : DB := { items := [hammerRow], images := [imageARow] }

def imageBPrimaryRow : ItemImageORM :=
  { id := 2, item_id := 1, image_url := "http://x/a.png", alt_text := none,
    is_primary := some true, created_at := 5, updated_at := 5 }

/-- Counterexample to C6 as stated: creating a second primary image at time 5
demotes image 1, whose is_primary becomes false while its updated_at stays at
its old value 1, not the write time 5. -/
theorem C6_counterexample :
    create_item_image dbPrimaryA 1 imageACreate 5 =
      Except.ok ({ items := [hammerRow],
                   images := [{ imageARow with is_primary := some false },
                              imageBPrimaryRow] },
                 imageBPrimaryRow) ∧
    ({ imageARow with is_primary := some false } : ItemImageORM).updated_at = 1 ∧
    (1 : Time) ≠ 5 :=
  ⟨rfl, rfl, by decide⟩

/-- Witness for C6: the concrete demoting create keeps the old updated_at 1
in place and appends only the new write time 5. -/
theorem C6_demotion_keeps_updated_at_witness :
    ({ items := [hammerRow],
       images := [{ imageARow with is_primary := some false },
                  imageBPrimaryRow] } : DB).images.map (fun j => j.updated_at) =
      dbPrimaryA.images.map (fun j => j.updated_at) ++ [5] :=
  (C6_demotion_keeps_updated_at.1 dbPrimaryA 1 imageACreate 5
    { items := [hammerRow],
      images := [{ imageARow with is_primary := some false }, imageBPrimaryRow] }
    imageBPrimaryRow rfl).1

/- ===== Claim C9 ===== -/

/-- Claim C9, corrected: a field present in the payload with value null is
applied for every nullable column (description, price, category, status,
alt_text, is_primary), clearing the stored value, and only absent fields are
left unchanged; but for the NOT NULL columns name and image_url a present
null makes the commit fail with a storage error instead of being applied. -/
theorem C9_present_null_fields (db : DB) (now : Time) :
    (∀ item_id u it, get_item db item_id = some it →
      (u.name = some none →
        update_item db item_id u now = Except.error ApiError.storageError) ∧
      (∀ db2 it2, update_item db item_id u now = Except.ok (db2, it2) →
        (u.description = some none → it2.description = none) ∧
        (u.price = some none → it2.price = none) ∧
        (u.category = some none → it2.category = none) ∧
        (u.status = some none → it2.status = none) ∧
        (u.description = none → it2.description = it.description) ∧
        (u.price = none → it2.price = it.price) ∧
        (u.category = none → it2.category = it.category) ∧
        (u.status = none → it2.status = it.status))) ∧
    (∀ item_id image_id u img, get_item_image db item_id image_id = some img →
      (u.image_url = some none →
        update_item_image db item_id image_id u now = Except.error ApiError.storageError) ∧
      (∀ db2 img2, update_item_image db item_id image_id u now = Except.ok (db2, img2) →
        (u.alt_text = some none → img2.alt_text = none) ∧
        (u.is_primary = some none → img2.is_primary = none) ∧
        (u.alt_text = none → img2.alt_text = img.alt_text) ∧
        (u.is_primary = none → img2.is_primary = img.is_primary))) := by
  constructor
  · intro item_id u it hfind
    simp only [get_item] at hfind
    constructor
    · intro hname
      simp only [update_item, hfind, applyItemUpdate, hname, Option.getD_some,
        Option.map_none']
    · intro db2 it2 hok
      simp only [update_item, hfind] at hok
      cases happ : applyItemUpdate it u now with
      | none => simp only [happ] at hok; exact absurd hok (by simp)
      | some x =>
        simp only [happ, Except.ok.injEq, Prod.mk.injEq] at hok
        obtain ⟨hdb, hit⟩ := hok
        rw [applyItemUpdate, Option.map_eq_some'] at happ
        obtain ⟨nm, _, hx⟩ := happ
        refine ⟨?_, ?_, ?_, ?_, ?_, ?_, ?_, ?_⟩ <;> intro hfld <;>
          simp [← hit, ← hx, hfld]
  · intro item_id image_id u img hfind
    simp only [get_item_image] at hfind
    constructor
    · intro hurl
      simp only [update_item_image, hfind, applyImageUpdate, hurl, Option.getD_some,
        Option.map_none']
    · intro db2 img2 hok
      simp only [update_item_image, hfind] at hok
      cases happ : applyImageUpdate img u with
      | none => simp only [happ] at hok; exact absurd hok (by simp)
      | some x =>
        simp only [happ, Except.ok.injEq, Prod.mk.injEq] at hok
        obtain ⟨hdb, himg⟩ := hok
        rw [applyImageUpdate, Option.map_eq_some'] at happ
        obtain ⟨url, _, hx⟩ := happ
        refine ⟨?_, ?_, ?_, ?_⟩ <;> intro hfld <;>
          simp [← himg, ← hx, hfld]

def nullNameUpdate : ItemUpdate := { name := some none }

/-- Counterexample to C9 as stated: a payload whose name field is present
with value null is not applied (the name column is NOT NULL, the commit
fails and the store keeps the old row), refuting the universal claim that
present-null fields are always applied. -/
theorem C9_counterexample :
    update_item dbHammer 1 nullNameUpdate 7 = Except.error ApiError.storageError ∧
    get_item dbHammer 1 = some hammerRow :=
  ⟨rfl, rfl⟩

def nullDescriptionUpdate : ItemUpdate := { description := some none }

def hammerRowNoDescription : ItemORM :=
  { id := 1, name := "Hammer", description := none, price := some 10,
    category := some "Tools", status := some ItemStatus.available,
    created_at := 0, updated_at := 7 }

/-- Witness for C9: a present-null description is applied, clearing the
column. -/
theorem C9_present_null_fields_witness :
    hammerRowNoDescription.description = none :=
  (((C9_present_null_fields dbHammer 7).1 1 nullDescriptionUpdate hammerRow rfl).2
    { items := [hammerRowNoDescription], images := [] } hammerRowNoDescription rfl).1 rfl

/- ===== Claim C1: invariant machinery ===== -/

theorem eq_of_mem_of_nodup_ids {l : List ItemImageORM}
    (h : (l.map (fun x => x.id)).Nodup) {a b : ItemImageORM}
    (ha : a ∈ l) (hb : b ∈ l) (hid : a.id = b.id) : a = b :=
  List.inj_on_of_nodup_map h ha hb hid

theorem countP_id_le_one_of_nodup {l : List ItemImageORM}
    (h : (l.map (fun x => x.id)).Nodup) (v : Nat) (q : ItemImageORM → Bool) :
    l.countP (fun x => (x.id == v) && q x) ≤ 1 := by
  have h1 : l.countP (fun x => (x.id == v) && q x) ≤ l.countP (fun x => x.id == v) :=
    List.countP_mono_left (fun x _ hx => (Bool.and_eq_true _ _ ▸ hx).1)
  have h2 : l.countP (fun x => x.id == v) =
      (l.map (fun x => x.id)).countP (fun y => y == v) := by
    rw [List.countP_map]
    rfl
  have h3 : (l.map (fun x => x.id)).countP (fun y => y == v) ≤ 1 := by
    rw [← List.count_eq_countP]
    exact List.nodup_iff_count_le_one.1 h v
  omega

/-- create_item preserves the store invariant. -/
theorem inv_create_item (db : DB) (c : ItemCreate) (now : Time)
    (h : Invariant db) : Invariant (create_item db c now).1 := by
  obtain ⟨hitems, himages, hcnt⟩ := h
  refine ⟨?_, himages, hcnt⟩
  simp only [create_item, List.map_append, List.map_cons, List.map_nil]
  rw [List.nodup_append]
  refine ⟨hitems, List.nodup_singleton _, ?_⟩
  intro x hx hmem
  simp only [List.mem_singleton] at hmem
  subst hmem
  exact absurd rfl (Nat.ne_of_lt (mem_lt_nextRowId hx))

/-- update_item preserves the store invariant. -/
theorem inv_update_item (db db2 : DB) (item_id : Nat) (u : ItemUpdate)
    (now : Time) (it2 : ItemORM)
    (hok : update_item db item_id u now = Except.ok (db2, it2))
    (h : Invariant db) : Invariant db2 := by
  obtain ⟨hitems, himages, hcnt⟩ := h
  cases hfind : db.items.find? (fun j => j.id == item_id) with
  | none => simp [update_item, hfind] at hok
  | some it =>
    have hid : it.id = item_id := by
      have := List.find?_some hfind
      simpa using this
    simp only [update_item, hfind] at hok
    cases happ : applyItemUpdate it u now with
    | none => simp only [happ] at hok; exact absurd hok (by simp)
    | some x =>
      simp only [happ, Except.ok.injEq, Prod.mk.injEq] at hok
      obtain ⟨hdb, hx⟩ := hok
      subst hdb
      have hxid : x.id = it.id := by
        rw [applyItemUpdate, Option.map_eq_some'] at happ
        obtain ⟨nm, _, hrec⟩ := happ
        rw [← hrec]
      refine ⟨?_, himages, hcnt⟩
      have hpt : ∀ j ∈ db.items,
          ((fun y => y.id) ∘ fun j => if j.id == item_id then x else j) j =
            (fun y => y.id) j := by
        intro j _
        by_cases hj : (j.id == item_id) = true
        · simp only [Function.comp, hj, if_pos]
          rw [hxid, hid]
          exact (beq_iff_eq.1 hj).symm
        · simp [Function.comp, hj]
      show ((db.items.map (fun j => if j.id == item_id then x else j)).map
        (fun y => y.id)).Nodup
      rw [List.map_map, List.map_congr_left hpt]
      exact hitems

/-- delete_item preserves the store invariant. -/
theorem inv_delete_item (db db2 : DB) (item_id : Nat) (m : String)
    (hok : delete_item db item_id = Except.ok (db2, m))
    (h : Invariant db) : Invariant db2 := by
  obtain ⟨hitems, himages, hcnt⟩ := h
  cases hfind : db.items.find? (fun j => j.id == item_id) with
  | none => simp [delete_item, hfind] at hok
  | some it =>
    simp only [delete_item, hfind, Except.ok.injEq, Prod.mk.injEq] at hok
    obtain ⟨hdb, _⟩ := hok
    subst hdb
    refine ⟨?_, ?_, ?_⟩
    · exact List.Nodup.sublist (List.Sublist.map _ (List.filter_sublist _)) hitems
    · exact List.Nodup.sublist (List.Sublist.map _ (List.filter_sublist _)) himages
    · intro i
      calc (db.images.filter (fun j => j.item_id != item_id)).countP (primaryPred i)
          ≤ db.images.countP (primaryPred i) :=
            List.Sublist.countP_le _ (List.filter_sublist _)
        _ ≤ 1 := hcnt i

/-- create_item_image preserves the store invariant. -/
theorem inv_create_image (db db2 : DB) (item_id : Nat) (c : ItemImageCreate)
    (now : Time) (ni : ItemImageORM)
    (hok : create_item_image db item_id c now = Except.ok (db2, ni))
    (h : Invariant db) : Invariant db2 := by
  obtain ⟨hitems, himages, hcnt⟩ := h
  cases hfind : db.items.find? (fun j => j.id == item_id) with
  | none => simp [create_item_image, hfind] at hok
  | some it =>
    simp only [create_item_image, hfind, Except.ok.injEq, Prod.mk.injEq] at hok
    obtain ⟨hdb, hni⟩ := hok
    subst hdb
    by_cases hp : c.is_primary = true
    · rw [if_pos hp]
      have hids : (db.images.map (fun j =>
          if j.item_id == item_id && j.is_primary == some true then
            { j with is_primary := some false } else j)).map (fun y => y.id) =
          db.images.map (fun y => y.id) := by
        rw [List.map_map]
        refine List.map_congr_left ?_
        intro j _
        by_cases hcond : (j.item_id == item_id && j.is_primary == some true) = true <;>
          simp [Function.comp, hcond]
      refine ⟨hitems, ?_, ?_⟩
      · simp only [List.map_append, List.map_cons, List.map_nil]
        rw [hids, List.nodup_append]
        refine ⟨himages, List.nodup_singleton _, ?_⟩
        intro x hx hmem
        simp only [List.mem_singleton] at hmem
        subst hmem
        exact absurd rfl (Nat.ne_of_lt (mem_lt_nextRowId hx))
      · intro i
        show List.countP (primaryPred i) _ ≤ 1
        rw [List.countP_append]
        by_cases hi : i = item_id
        · subst hi
          have hz : (db.images.map (fun j =>
              if j.item_id == i && j.is_primary == some true then
                { j with is_primary := some false } else j)).countP (primaryPred i) = 0 := by
            rw [List.countP_map, List.countP_eq_zero]
            intro j _
            simp only [Function.comp]
            by_cases hcond : (j.item_id == i && j.is_primary == some true) = true
            · rw [if_pos hcond]
              simp [primaryPred]
            · rw [if_neg hcond]
              simpa [primaryPred] using hcond
          rw [hz]
          simp [primaryPred, hp]
        · have he : (db.images.map (fun j =>
              if j.item_id == item_id && j.is_primary == some true then
                { j with is_primary := some false } else j)).countP (primaryPred i) =
              db.images.countP (primaryPred i) := by
            rw [List.countP_map]
            refine List.countP_congr ?_
            intro j _
            simp only [Function.comp]
            by_cases hcond : (j.item_id == item_id && j.is_primary == some true) = true
            · rw [if_pos hcond]
              simp only [Bool.and_eq_true, beq_iff_eq] at hcond
              simp only [primaryPred, Bool.and_eq_true, beq_iff_eq]
              constructor
              · rintro ⟨h1, h2⟩
                exact absurd h2 (by simp)
              · rintro ⟨h1, h2⟩
                exact absurd (hcond.1.symm.trans h1).symm hi
            · rw [if_neg hcond]
          rw [he]
          have hni0 : primaryPred i ({ id := db.nextImageId, item_id := item_id, image_url := c.image_url, alt_text := c.alt_text, is_primary := some c.is_primary, created_at := now, updated_at := now } : ItemImageORM) = false := by
            have h1 : (item_id == i) = false :=
              beq_eq_false_iff_ne.2 (fun hh => hi hh.symm)
            simp [primaryPred, h1]
          simp only [List.countP_cons, List.countP_nil, hni0]
          simpa using hcnt i
    · rw [if_neg hp]
      refine ⟨hitems, ?_, ?_⟩
      · simp only [List.map_append, List.map_cons, List.map_nil]
        rw [List.nodup_append]
        refine ⟨himages, List.nodup_singleton _, ?_⟩
        intro x hx hmem
        simp only [List.mem_singleton] at hmem
        subst hmem
        exact absurd rfl (Nat.ne_of_lt (mem_lt_nextRowId hx))
      · intro i
        show List.countP (primaryPred i) _ ≤ 1
        rw [List.countP_append]
        have hpf : c.is_primary = false := by
          cases hcb : c.is_primary
          · rfl
          · exact absurd hcb hp
        have hni0 : primaryPred i ({ id := db.nextImageId, item_id := item_id, image_url := c.image_url, alt_text := c.alt_text, is_primary := some c.is_primary, created_at := now, updated_at := now } : ItemImageORM) = false := by
          simp [primaryPred, hpf]
        simp only [List.countP_cons, List.countP_nil, hni0]
        simpa using hcnt i

/-- update_item_image preserves the store invariant. -/
theorem inv_update_image (db db2 : DB) (item_id image_id : Nat) (u : ItemImageUpdate)
    (now : Time) (ni : ItemImageORM)
    (hok : update_item_image db item_id image_id u now = Except.ok (db2, ni))
    (h : Invariant db) : Invariant db2 := by
  obtain ⟨hitems, himages, hcnt⟩ := h
  cases hfind : db.images.find? (fun j => j.id == image_id && j.item_id == item_id) with
  | none => simp [update_item_image, hfind] at hok
  | some img =>
    have hpred := List.find?_some hfind
    simp only [Bool.and_eq_true, beq_iff_eq] at hpred
    have hmemimg : img ∈ db.images := List.mem_of_find?_eq_some hfind
    simp only [update_item_image, hfind] at hok
    cases happ : applyImageUpdate img u with
    | none => simp only [happ] at hok; exact absurd hok (by simp)
    | some img2 =>
      simp only [happ, Except.ok.injEq, Prod.mk.injEq] at hok
      obtain ⟨hdb, hni⟩ := hok
      subst hdb
      rw [applyImageUpdate, Option.map_eq_some'] at happ
      obtain ⟨url, hurl, himg2⟩ := happ
      have hid2 : img2.id = image_id := by rw [← himg2]; exact hpred.1
      have hitem2 : img2.item_id = item_id := by rw [← himg2]; exact hpred.2
      by_cases hprim : (u.is_primary == some (some true)) = true
      · rw [if_pos hprim]
        have hids : ((db.images.map (fun j =>
            if j.id == image_id && j.item_id == item_id then
              { img2 with updated_at := now } else j)).map (fun j =>
            if j.item_id == item_id && j.id != image_id && j.is_primary == some true then
              { j with is_primary := some false } else j)).map (fun y => y.id) =
            db.images.map (fun y => y.id) := by
          rw [List.map_map, List.map_map]
          refine List.map_congr_left ?_
          intro j _
          simp only [Function.comp]
          by_cases htgt : (j.id == image_id && j.item_id == item_id) = true
          · rw [if_pos htgt]
            rw [if_neg (by simp [hid2])]
            simp only [Bool.and_eq_true, beq_iff_eq] at htgt
            simp [hid2, htgt.1]
          · rw [if_neg htgt]
            by_cases hdem : (j.item_id == item_id && j.id != image_id &&
                j.is_primary == some true) = true
            · rw [if_pos hdem]
            · rw [if_neg hdem]
        have hnodup3 : (((db.images.map (fun j =>
            if j.id == image_id && j.item_id == item_id then
              { img2 with updated_at := now } else j)).map (fun j =>
            if j.item_id == item_id && j.id != image_id && j.is_primary == some true then
              { j with is_primary := some false } else j)).map (fun y => y.id)).Nodup := by
          rw [hids]
          exact himages
        refine ⟨hitems, ?_, ?_⟩
        · show (((db.images.map (fun j =>
            if j.id == image_id && j.item_id == item_id then
              { img2 with updated_at := now } else j)).map (fun j =>
            if j.item_id == item_id && j.id != image_id && j.is_primary == some true then
              { j with is_primary := some false } else j)).map (fun y => y.id)).Nodup
          exact hnodup3
        · intro i
          by_cases hi : i = item_id
          · subst hi
            show List.countP (primaryPred i) _ ≤ 1
            refine Nat.le_trans (List.countP_mono_left
              (q := fun x => (x.id == image_id) && primaryPred i x) ?_) ?_
            · intro x hx hpx
              show ((x.id == image_id) && primaryPred i x) = true
              obtain ⟨y, hy, hxy⟩ := List.mem_map.1 hx
              obtain ⟨j, hj, hjy⟩ := List.mem_map.1 hy
              subst hxy hjy
              rw [Bool.and_eq_true]
              refine ⟨?_, hpx⟩
              by_cases htgt : (j.id == image_id && j.item_id == i) = true
              · rw [if_pos htgt]
                rw [if_neg (by simp [hid2])]
                simp [hid2]
              · rw [if_neg htgt] at hpx ⊢
                by_cases hdem : (j.item_id == i && j.id != image_id &&
                    j.is_primary == some true) = true
                · rw [if_pos hdem] at hpx ⊢
                  simp [primaryPred] at hpx
                · rw [if_neg hdem] at hpx ⊢
                  simp only [primaryPred, Bool.and_eq_true, beq_iff_eq] at hpx
                  by_cases hjid : j.id = image_id
                  · simp [hjid]
                  · exact absurd (by
                      rw [Bool.and_eq_true, Bool.and_eq_true]
                      exact ⟨⟨by simp [hpx.1], by simp [hjid]⟩, by simp [hpx.2]⟩) hdem
            · exact countP_id_le_one_of_nodup hnodup3 image_id (primaryPred i)
          · show List.countP (primaryPred i) _ ≤ 1
            have he : (((db.images.map (fun j =>
                if j.id == image_id && j.item_id == item_id then
                  { img2 with updated_at := now } else j)).map (fun j =>
                if j.item_id == item_id && j.id != image_id && j.is_primary == some true then
                  { j with is_primary := some false } else j))).countP (primaryPred i) =
                db.images.countP (primaryPred i) := by
              rw [List.countP_map, List.countP_map]
              refine List.countP_congr ?_
              intro j _
              simp only [Function.comp]
              by_cases htgt : (j.id == image_id && j.item_id == item_id) = true
              · rw [if_pos htgt]
                rw [if_neg (by simp [hid2])]
                simp only [Bool.and_eq_true, beq_iff_eq] at htgt
                simp only [primaryPred, Bool.and_eq_true, beq_iff_eq]
                constructor
                · rintro ⟨h1, h2⟩
                  exact absurd (hitem2.symm.trans h1).symm hi
                · rintro ⟨h1, h2⟩
                  exact absurd (htgt.2.symm.trans h1).symm hi
              · rw [if_neg htgt]
                by_cases hdem : (j.item_id == item_id && j.id != image_id &&
                    j.is_primary == some true) = true
                · rw [if_pos hdem]
                  simp only [Bool.and_eq_true, bne_iff_ne, beq_iff_eq] at hdem
                  simp only [primaryPred, Bool.and_eq_true, beq_iff_eq]
                  constructor
                  · rintro ⟨h1, h2⟩
                    exact absurd h2 (by simp)
                  · rintro ⟨h1, h2⟩
                    exact absurd (hdem.1.1.symm.trans h1).symm hi
                · rw [if_neg hdem]
            rw [he]
            exact hcnt i
      · rw [if_neg hprim]
        have hneq : u.is_primary ≠ some (some true) := by
          intro hc
          rw [hc] at hprim
          simp at hprim
        have hids : ((db.images.map (fun j =>
            if j.id == image_id && j.item_id == item_id then
              { img2 with updated_at := now } else j))).map (fun y => y.id) =
            db.images.map (fun y => y.id) := by
          rw [List.map_map]
          refine List.map_congr_left ?_
          intro j _
          simp only [Function.comp]
          by_cases htgt : (j.id == image_id && j.item_id == item_id) = true
          · rw [if_pos htgt]
            simp only [Bool.and_eq_true, beq_iff_eq] at htgt
            simp [hid2, htgt.1]
          · rw [if_neg htgt]
        refine ⟨hitems, ?_, ?_⟩
        · show (((db.images.map (fun j =>
            if j.id == image_id && j.item_id == item_id then
              { img2 with updated_at := now } else j))).map (fun y => y.id)).Nodup
          rw [hids]
          exact himages
        · intro i
          show List.countP (primaryPred i) _ ≤ 1
          rw [List.countP_map]
          refine Nat.le_trans (List.countP_mono_left ?_) (hcnt i)
          intro j hj hpj
          simp only [Function.comp] at hpj
          show primaryPred i j = true
          by_cases htgt : (j.id == image_id && j.item_id == item_id) = true
          · rw [if_pos htgt] at hpj
            have hjimg : j = img := eq_of_mem_of_nodup_ids himages hj hmemimg (by
              simp only [Bool.and_eq_true, beq_iff_eq] at htgt
              rw [htgt.1, hpred.1])
            simp only [primaryPred, Bool.and_eq_true, beq_iff_eq] at hpj
            have hgetd : u.is_primary.getD img.is_primary = some true := by
              have h2 := hpj.2
              rw [← himg2] at h2
              exact h2
            cases hup : u.is_primary with
            | none =>
              rw [hup, Option.getD_none] at hgetd
              subst hjimg
              simp only [primaryPred, Bool.and_eq_true, beq_iff_eq]
              exact ⟨hpred.2.trans (hitem2.symm.trans hpj.1), hgetd⟩
            | some v =>
              rw [hup, Option.getD_some] at hgetd
              subst hgetd
              exact absurd hup hneq
          · rw [if_neg htgt] at hpj
            exact hpj

/-- delete_item_image preserves the store invariant. -/
theorem inv_delete_image (db db2 : DB) (item_id image_id : Nat) (m : String)
    (hok : delete_item_image db item_id image_id = Except.ok (db2, m))
    (h : Invariant db) : Invariant db2 := by
  obtain ⟨hitems, himages, hcnt⟩ := h
  cases hfind : db.images.find? (fun j => j.id == image_id && j.item_id == item_id) with
  | none => simp [delete_item_image, hfind] at hok
  | some img =>
    simp only [delete_item_image, hfind, Except.ok.injEq, Prod.mk.injEq] at hok
    obtain ⟨hdb, _⟩ := hok
    subst hdb
    refine ⟨hitems, ?_, ?_⟩
    · exact List.Nodup.sublist (List.Sublist.map _ (List.filter_sublist _)) himages
    · intro i
      calc (db.images.filter _).countP (primaryPred i)
          ≤ db.images.countP (primaryPred i) :=
            List.Sublist.countP_le _ (List.filter_sublist _)
        _ ≤ 1 := hcnt i


/-- Every reachable store satisfies the invariant. -/
theorem reachable_invariant {db : DB} (h : Reachable db) : Invariant db := by
  induction h with
  | empty =>
    refine ⟨by simp [emptyDB], by simp [emptyDB], fun i => ?_⟩
    simp [primaryCount, emptyDB]
  | createItem hr ih => exact inv_create_item _ _ _ ih
  | updateItem hr hok ih => exact inv_update_item _ _ _ _ _ _ hok ih
  | deleteItem hr hok ih => exact inv_delete_item _ _ _ _ hok ih
  | createImage hr hok ih => exact inv_create_image _ _ _ _ _ _ hok ih
  | updateImage hr hok ih => exact inv_update_image _ _ _ _ _ _ _ hok ih
  | deleteImage hr hok ih => exact inv_delete_image _ _ _ _ _ hok ih

/-- Claim C1: in every reachable store each item has at most one primary
image; and whenever create_item_image or update_item_image writes an image
with is_primary = true, every other image of the same item is left
non-primary by that same write. -/
theorem C1_primary_image_exclusive :
    (∀ db, Reachable db → ∀ i, primaryCount db i ≤ 1) ∧
    (∀ db item_id c now db2 ni, c.is_primary = true →
      create_item_image db item_id c now = Except.ok (db2, ni) →
      ∀ j ∈ db2.images, j.item_id = item_id → j.id ≠ ni.id →
        ¬ j.is_primary = some true) ∧
    (∀ db item_id image_id u now db2 ni, u.is_primary = some (some true) →
      update_item_image db item_id image_id u now = Except.ok (db2, ni) →
      ∀ j ∈ db2.images, j.item_id = item_id → j.id ≠ image_id →
        ¬ j.is_primary = some true) := by
  refine ⟨fun db h i => (reachable_invariant h).2.2 i, ?_, ?_⟩
  · intro db item_id c now db2 ni hp hok j hj hitem hid
    cases hfind : db.items.find? (fun x => x.id == item_id) with
    | none => simp [create_item_image, hfind] at hok
    | some it =>
      simp only [create_item_image, hfind, Except.ok.injEq, Prod.mk.injEq] at hok
      obtain ⟨hdb, hni⟩ := hok
      subst hdb
      rw [if_pos hp] at hj
      rcases List.mem_append.1 hj with hj1 | hj2
      · obtain ⟨j0, hj0, hjeq⟩ := List.mem_map.1 hj1
        by_cases hcond : (j0.item_id == item_id && j0.is_primary == some true) = true
        · rw [if_pos hcond] at hjeq
          subst hjeq
          simp
        · rw [if_neg hcond] at hjeq
          subst hjeq
          intro hcontra
          apply hcond
          rw [Bool.and_eq_true]
          exact ⟨by simp [hitem], by simp [hcontra]⟩
      · have hje := List.mem_singleton.1 hj2
        subst hje
        refine absurd ?_ hid
        rw [← hni]
  · intro db item_id image_id u now db2 ni hu hok j hj hitem hid
    cases hfind : db.images.find? (fun x => x.id == image_id && x.item_id == item_id) with
    | none => simp [update_item_image, hfind] at hok
    | some img =>
      simp only [update_item_image, hfind] at hok
      cases happ : applyImageUpdate img u with
      | none => simp only [happ] at hok; exact absurd hok (by simp)
      | some img2 =>
        simp only [happ, Except.ok.injEq, Prod.mk.injEq] at hok
        obtain ⟨hdb, hni⟩ := hok
        subst hdb
        rw [if_pos (by simp [hu])] at hj
        obtain ⟨y, hy, hyeq⟩ := List.mem_map.1 hj
        by_cases hcond : (y.item_id == item_id && y.id != image_id &&
            y.is_primary == some true) = true
        · rw [if_pos hcond] at hyeq
          subst hyeq
          simp
        · rw [if_neg hcond] at hyeq
          subst hyeq
          intro hcontra
          apply hcond
          rw [Bool.and_eq_true, Bool.and_eq_true]
          exact ⟨⟨by simp [hitem], by simp [hid]⟩, by simp [hcontra]⟩

/-- Witness for C1: the two-step concrete store (create the item, attach a
primary image) is reachable and satisfies the bound, and the concrete
demoting create leaves image 1 non-primary. -/
theorem C1_primary_image_exclusive_witness :
    primaryCount dbPrimaryA 1 ≤ 1 ∧
    ¬ ({ imageARow with is_primary := some false } : ItemImageORM).is_primary = some true := by
  constructor
  · have h0 : Reachable (create_item emptyDB hammerCreate 0).1 :=
      Reachable.createItem Reachable.empty
    have h1 : Reachable dbHammer := h0
    have h2 : Reachable dbPrimaryA :=
      Reachable.createImage h1
        (rfl : create_item_image dbHammer 1 imageACreate 1 =
          Except.ok (dbPrimaryA, imageARow))
    exact C1_primary_image_exclusive.1 dbPrimaryA h2 1
  · exact C1_primary_image_exclusive.2.1 dbPrimaryA 1 imageACreate 5
      { items := [hammerRow],
        images := [{ imageARow with is_primary := some false }, imageBPrimaryRow] }
      imageBPrimaryRow rfl rfl
      { imageARow with is_primary := some false }
      (List.mem_cons_self _ _) rfl (by decide)

end Catalog
